import Mathlib

/-!
Shallow embedding of the wipedisk_enterprise free-space wipe core:
the per-disk wipe session loop (internal/wipe/engine.go), the overwrite
strategies (internal/wipe/strategy.go), the throttled writer
(internal/wipe/throttled_writer.go), the buffer pool
(internal/wipe/buffer_pool.go), the maintenance orchestrator and the
physical verifier, together with theorems checking the specification
against the code.

Modelling conventions: Go float64 arithmetic is modelled with exact
rationals; the one lossy step the code performs (the time.Duration cast,
which truncates to whole nanoseconds) is modelled with an explicit
integer floor.  Machine integers are modelled with Nat and Int: every
quantity involved stays far below 2^63, and the single overflow guard in
the source (engine.go line 350) can never fire for such values, so it is
omitted and noted at the use site.  File-system effects are modelled as
explicit state: a disk has a writable capacity in bytes and a list of
artifact files currently existing on it.
-/

namespace WipeDisk

/-- Prefix test on character lists, the building block of the substring
search below. -/
def beginsWith : List Char → List Char → Bool
  | _, [] => true
  | [], _ :: _ => false
  | a :: s, b :: p => a == b && beginsWith s p

/-- Substring occurrence on character lists: the pattern begins at some
position of the string. -/
def hasSub : List Char → List Char → Bool
  | [], pat => pat.isEmpty
  | a :: t, pat => beginsWith (a :: t) pat || hasSub t pat

/-- Substring test mirroring Go strings.Contains. -/
def containsSub (s pat : String) : Bool :=
  hasSub s.data pat.data

/-- ASCII lowercasing of one character; the identity elsewhere.  Go
strings.ToLower lowercases full Unicode, but every uppercase letter in
the error texts the code classifies is ASCII, where the two agree. -/
def charLower (c : Char) : Char :=
  if 65 ≤ c.toNat ∧ c.toNat ≤ 90 then Char.ofNat (c.toNat + 32) else c

/-- Lowercasing mirroring Go strings.ToLower on the texts involved. -/
def strLower (s : String) : String :=
  ⟨s.data.map charLower⟩

/-! ## system.IsWindowsError (src/unnamed/part_008) -/

def ERROR_NOT_READY : Nat := 0x15

def ERROR_DISK_FULL : Nat := 112

/-- Model of system.IsWindowsError for a non-nil error: lowercase the
error text and test the substrings associated with the given Windows
error code (part_008 lines 11-27). -/
def IsWindowsError (msg : String) (code : Nat) : Bool :=
  let m := strLower msg
  if code == ERROR_DISK_FULL then
    containsSub m "disk full" || containsSub m "not enough space" || containsSub m "no space"
  else if code == ERROR_NOT_READY then
    containsSub m "not ready" || containsSub m "device not ready"
  else false

/-! ## ThrottledWriter pacing (internal/wipe/throttled_writer.go, lines 30-57)

The pacing arithmetic of ThrottledWriter.Write: with a positive rate the
expected duration of a write is len(data)/(rate*1MiB) seconds, converted
to a time.Duration (truncation to whole nanoseconds, modelled as an
integer floor); if the time elapsed since the previous write is shorter,
the writer sleeps for the difference.  All times are in nanoseconds. -/

/-- Expected duration, in whole nanoseconds, of a write of len bytes at
maxSpeedMBps MB/s: time.Duration(float64(len)/bytesPerSec*float64(time.Second)). -/
def expectedWriteNs (maxSpeedMBps : ℚ) (len : Nat) : ℤ :=
  ⌊((len : ℚ) / (maxSpeedMBps * 1024 * 1024)) * 1000000000⌋

/-- Sleep the throttled writer inserts before the physical write:
zero when the rate is zero (unthrottled) or when enough time has already
elapsed since the previous write, otherwise expected minus elapsed. -/
def pacingSleepNs (maxSpeedMBps : ℚ) (len : Nat) (elapsedNs : ℤ) : ℤ :=
  if 0 < maxSpeedMBps then
    let expected := expectedWriteNs maxSpeedMBps len
    if elapsedNs < expected then expected - elapsedNs else 0
  else 0

/-! ## Buffer pool (internal/wipe/buffer_pool.go)

A pooled buffer is a Go slice b[:size] of a backing array of capacity
poolSize; we model the visible part (data, length = requested size) and
the hidden tail beyond the length (tl), so that the capacity is
data.length + tl.length.  A bucket stores full-capacity buffers; sync.Pool's
New allocates a zeroed buffer.  Buckets are created on first acquire
(the double-checked lock of getBuffer); putBuffer stores nothing when the
bucket for the buffer's capacity does not exist. -/

/-- Size classes of the pool (buffer_pool.go line 85). -/
def poolSizes : List Nat := [1024, 4096, 16384, 65536, 262144, 1048576, 4194304, 16777216]

/-- Bucket size class for a request: the first standard size that fits,
else the size rounded up to a 4KiB multiple (buffer_pool.go lines 83-95). -/
def getPoolSize (size : Nat) : Nat :=
  match poolSizes.find? (fun p => size ≤ p) with
  | some p => p
  | none => ((size + 4095) / 4096) * 4096

/-- A buffer as handed to a consumer: the visible slice and the hidden
tail up to the backing capacity. -/
structure PoolBuffer where
  data : List Nat
  tl : List Nat
deriving DecidableEq

/-- Pool state: for each size class, the stack of stored buffers when the
bucket exists. -/
def BufferPoolState : Type := Nat → Option (List (List Nat))

/-- Pointwise bucket update of the pool state. -/
def updatePool (P : BufferPoolState) (k : Nat) (v : Option (List (List Nat))) :
    BufferPoolState :=
  fun j => if j = k then v else P j

/-- Model of BufferPool.getBuffer (buffer_pool.go lines 36-62): ensure the
bucket exists, take a stored buffer or a fresh zeroed one, and hand out
its first size bytes. -/
def getBuffer (P : BufferPoolState) (size : Nat) : BufferPoolState × PoolBuffer :=
  let p := getPoolSize size
  match P p with
  | some (b :: rest) =>
      (updatePool P p (some rest), ⟨b.take size, b.drop size⟩)
  | some [] =>
      (P, ⟨List.replicate size 0, List.replicate (p - size) 0⟩)
  | none =>
      (updatePool P p (some []), ⟨List.replicate size 0, List.replicate (p - size) 0⟩)

/-- Model of BufferPool.putBuffer (buffer_pool.go lines 64-80): zero the
buffer over its length, then store it at full capacity in the bucket for
its capacity; when that bucket does not exist the buffer is dropped. -/
def putBuffer (P : BufferPoolState) (b : PoolBuffer) : BufferPoolState :=
  let capacity := b.data.length + b.tl.length
  let p := getPoolSize capacity
  match P p with
  | some stack =>
      updatePool P p (some ((List.replicate b.data.length 0 ++ b.tl) :: stack))
  | none => P

/-- Pool invariant: every stored buffer has exactly the bucket's length
and is all-zero. -/
def PoolInv (P : BufferPoolState) : Prop :=
  ∀ k bs, P k = some bs → ∀ b ∈ bs, b.length = k ∧ ∀ x ∈ b, x = 0

/-! ## Overwrite strategies (internal/wipe/strategy.go) -/

/-- The three strategy variants (strategy.go lines 33, 84, 135). -/
inductive WipeStrategyKind where
  | standard
  | sdelete
  | cipher
deriving DecidableEq

/-- Model of GetStrategy (strategy.go lines 160-172): mode dispatch with
StandardStrategy as the default for unrecognized modes. -/
def GetStrategy (mode : String) : WipeStrategyKind :=
  if mode == "standard" then .standard
  else if mode == "sdelete" then .sdelete
  else if mode == "cipher" then .cipher
  else .standard

/-- GetMaxFiles of each strategy (strategy.go lines 79-81, 130-132, 156-158). -/
def GetMaxFiles : WipeStrategyKind → Nat
  | .standard => 1000
  | .sdelete => 100
  | .cipher => 50

/-- GetMinFreeSpace of each strategy (strategy.go lines 71-73, 122-124, 148-150). -/
def GetMinFreeSpace : WipeStrategyKind → Nat
  | .standard => 100 * 1024 * 1024
  | .sdelete => 50 * 1024 * 1024
  | .cipher => 10 * 1024 * 1024

/-! ## createLargeFile chunk contents (strategy.go lines 386-452)

createLargeFile allocates one 16MiB buffer, fills it from crypto/rand
ONCE (line 400, before the write loop), and then writes that same buffer
content for every chunk of the file; the final chunk is the prefix of
the buffer of the remaining length.  We model the sequence of chunk
plaintexts written for a file, as a function of the single random draw r
(assumed of buffer length 16MiB) and the file size, and the sequence of
draws the call consumes from the random source. -/

def chunkSizeLarge : Nat := 16 * 1024 * 1024

/-- Chunk plaintexts createLargeFile writes for one file: the per-file
buffer r for every full chunk, then its prefix for the remainder. -/
def createLargeFileChunks (r : List Nat) (fileSize : Nat) : List (List Nat) :=
  List.replicate (fileSize / chunkSizeLarge) r ++
    (if fileSize % chunkSizeLarge = 0 then [] else [r.take (fileSize % chunkSizeLarge)])

/-- Buffers createLargeFile reads from the random source: exactly the one
rand.Read at strategy.go line 400, independent of the file size. -/
def createLargeFileDraws (r : List Nat) (_fileSize : Nat) : List (List Nat) := [r]

/-- Claim-side freshness, following the spec words: every chunk written
is freshly drawn, i.e. the chunk sequence coincides with the sequence of
buffers drawn from the random source during the call. -/
def chunksFreshlyDrawn (chunks draws : List (List Nat)) : Prop :=
  chunks = draws

/-! ## Physical verifier (src/unnamed/part_012, lines 236-341 and 497-545)

A verification report is modelled by the fields the success-rate logic
reads: the recovery-attempt counter, the recovered byte count and the
list of anomaly severities. -/

/-- Anomaly-penalty fold of calculateSuccessRate (part_012 lines 506-515):
high costs 20, medium 10, low 5, anything else nothing. -/
def anomalyFold (rating : ℚ) (sev : String) : ℚ :=
  if sev == "high" then rating - 20
  else if sev == "medium" then rating - 10
  else if sev == "low" then rating - 5
  else rating

/-- Model of PhysicalVerifier.calculateSuccessRate (part_012 lines
497-526): 100 outright when no recovery attempt was made; otherwise 100
minus the anomaly penalties, and, only when recovered bytes are positive,
minus recovered/1024 with a floor at 0. -/
def calculateSuccessRate (attempts : Nat) (anomalies : List String) (recovered : ℤ) : ℚ :=
  if attempts = 0 then 100
  else
    let rating := anomalies.foldl anomalyFold 100
    if 0 < recovered then
      let rating2 := rating - (recovered : ℚ) / 1024
      if rating2 < 0 then 0 else rating2
    else rating

/-- Model of determineCompliance (part_012 lines 529-545). -/
def determineCompliance (rate : ℚ) : List String :=
  (if 95 ≤ rate then ["DOD5220"] else []) ++
    (if 90 ≤ rate then ["NIST800-88"] else []) ++
      (if 85 ≤ rate then ["BSI_VSITR"] else [])

/-- The verified flag VerifyReport derives from the success rate
(part_012 line 286). -/
def wipeVerifiedOf (rate : ℚ) : Bool :=
  decide (95 ≤ rate)

/-- Anomaly severities performBasicVerification appends (part_012 lines
296-341): a medium space_mismatch when free space is below the claimed
wiped bytes, and a low speed_anomaly when the reported speed exceeds
1000 MB/s; the recovery-attempt counter is never touched. -/
def performBasicVerification (freeSize bytesWiped : Nat) (speedMBps : ℚ)
    (anomalies : List String) : List String :=
  let a1 := if freeSize < bytesWiped then anomalies ++ ["medium"] else anomalies
  if 1000 < speedMBps then a1 ++ ["low"] else a1

/-- Result of a basic-level VerifyReport run (part_012 lines 236-294,
specialised to LevelBasic): the report starts with zero attempts and
recovered bytes; basic verification either appends its anomalies or, on
an internal error (for example the target disk was not found), the error
is converted into one high-severity anomaly; then the rate, the
compliance set and the verified flag are derived. -/
def verifyReportBasic (diskFound : Bool) (freeSize bytesWiped : Nat) (speedMBps : ℚ) :
    Nat × List String × ℚ × Bool :=
  let anomalies :=
    if diskFound then performBasicVerification freeSize bytesWiped speedMBps []
    else ["high"]
  let rate := calculateSuccessRate 0 anomalies 0
  (0, anomalies, rate, wipeVerifiedOf rate)

/-- Claim-side success-rate formula, following the spec words verbatim:
start at 100, subtract 20 per high, 10 per medium, 5 per low, subtract
recovered/1024, floored at 0, with no reference to the attempt counter. -/
def specSuccessRate (anomalies : List String) (recovered : ℤ) : ℚ :=
  max 0 (100 - 20 * (anomalies.count "high" : ℚ) - 10 * (anomalies.count "medium" : ℚ)
    - 5 * (anomalies.count "low" : ℚ) - (recovered : ℚ) / 1024)

/-! ## Maintenance orchestrator report status (src/unnamed/part_000)

ExecutePlan counts each collected phase result as a success when its
status is COMPLETED and as a failure otherwise (lines 227-235), then
derives the report status (lines 241-247). -/

/-- Success and failure counters of the result-collection loop. -/
def countPhaseResults (results : List String) : Nat × Nat :=
  results.foldl
    (fun acc st => if st == "COMPLETED" then (acc.1 + 1, acc.2) else (acc.1, acc.2 + 1))
    (0, 0)

/-- Report status derivation of ExecutePlan (part_000 lines 241-247). -/
def deriveReportStatus (results : List String) : String :=
  let c := countPhaseResults results
  if c.2 = 0 then "COMPLETED"
  else if 0 < c.1 then "PARTIAL"
  else "FAILED"

/-! ## handleWipeError (src/unnamed/part_012, lines 114-126)

executeWipeSession classifies a pass error by substring of its message:
limit or timeout gives PARTIAL, cancel gives CANCELLED, anything else
FAILED.  The model returns the status the operation record receives. -/

/-- Model of handleWipeError: the terminal status assigned from the error
text of a failed pass. -/
def handleWipeError (errStr : String) : String :=
  if containsSub errStr "limit" || containsSub errStr "timeout" then "PARTIAL"
  else if containsSub errStr "cancel" then "CANCELLED"
  else "FAILED"

/-- The cancellation message WipeSession.Execute returns when the context
is cancelled (engine.go lines 464 and 537). -/
def sessionCancelMsg : String := "операция отменена"

/-- The timeout message WipeSession.Execute returns when the deadline or
the configured maximum duration fires (engine.go lines 461, 472, 534). -/
def sessionTimeoutMsg : String := "достигнут лимит времени операции"

/-! ## WipeSession (internal/wipe/engine.go, lines 264-566)

The session loop is modelled with explicit state and an environment of
oracles for the nondeterministic inputs the code reads: the context
status at each loop head and during each inter-file pause, the two
clock-driven timeout checks, and the rand.Int63n draw for each file
size.  The disk is modelled by its actual writable capacity in bytes
(writes succeed while capacity remains; once it is exhausted the write
returns the platform volume-full error after storing what fits, exactly
the POSIX short-write-then-ENOSPC behaviour the Go write loop sees), a
not-ready flag (a yanked device: every write fails with the platform
not-ready error), and the list of artifact files existing on it.  The
session Execute returns an optional error message, and the model also
records which source return path produced the result (ExitKind) and
which artifact, if any, was abandoned mid-write. -/

/-- Context status a cancellation check can observe. -/
inductive CancelKind where
  | cancelled
  | deadline
deriving DecidableEq

/-- Oracles for the inputs WipeSession.Execute reads from its
environment, indexed by the file index of the loop iteration. -/
structure ExecEnv where
  cancelAt : Nat → Option CancelKind
  timeoutAt : Nat → Bool
  fileTimeoutAt : Nat → Bool
  delayCancelAt : Nat → Option CancelKind
  draw : Nat → Nat

/-- Mutable state of a WipeSession (engine.go lines 265-278). -/
structure Session where
  freeSpace : Nat
  bytesWritten : Nat
  createdFiles : List Nat
  fileDelayMs : Nat
  diskType : String
deriving DecidableEq

/-- State of the target disk: writable capacity before volume-full, the
device-not-ready fault flag, and the artifact files existing on disk. -/
structure Disk where
  capacity : Nat
  notReady : Bool
  onDisk : List Nat
deriving DecidableEq

/-- Model of getAdaptiveChunkSize (engine.go lines 298-307). -/
def getAdaptiveChunkSize (diskType : String) : Nat :=
  if diskType == "HDD" then 2 * 1024 * 1024
  else if diskType == "SSD" then 16 * 1024 * 1024
  else 4 * 1024 * 1024

/-- The platform volume-full error text a failing write produces. -/
def diskFullMsg : String := "no space left on device"

/-- The platform error text a write against a yanked device produces. -/
def notReadyMsg : String := "The device is not ready."

/-- Chunked write loop of createWipeFile (engine.go lines 347-387)
against the disk model, returning (bytes written, remaining capacity,
error).  A chunk write stores min(chunk, remaining bytes of the file);
when the device is not ready it fails outright; when capacity cannot
hold the chunk it stores what fits and then reports volume-full.  The
fuel only bounds the recursion and is chosen so it cannot run out (each
step consumes at least one byte of the file); the overflow guard at
engine.go line 350 is omitted because Nat cannot overflow. -/
def writeChunks (notReady : Bool) (k : Nat) :
    Nat → Nat → Nat → Nat × Nat × Option String
  | 0, cap, _ => (0, cap, some "chunk fuel exhausted")
  | fuel + 1, cap, remaining =>
    if remaining = 0 then (0, cap, none)
    else
      let toWrite := min k remaining
      if notReady then (0, cap, some notReadyMsg)
      else if toWrite ≤ cap then
        let r := writeChunks notReady k fuel (cap - toWrite) (remaining - toWrite)
        (toWrite + r.1, r.2.1, r.2.2)
      else (cap, 0, some diskFullMsg)

/-- Result of one createWipeFile call: the updated session and disk, the
error if any, and whether the artifact was created on disk. -/
structure FileResult where
  session : Session
  disk : Disk
  err : Option String
  created : Bool
deriving DecidableEq

/-- Model of WipeSession.createWipeFile (engine.go lines 310-404): a
timeout check before the file is created; then the artifact appears on
disk, the chunked write runs, accumulated bytes are credited to the
session even on a failed write, and only after a fully successful write
and sync is the artifact recorded in CreatedFiles and the free-space
estimate decremented (saturating, lines 396-401). -/
def createWipeFile (env : ExecEnv) (s : Session) (d : Disk) (i fileSize : Nat) :
    FileResult :=
  if env.fileTimeoutAt i then ⟨s, d, some "operation time limit reached", false⟩
  else
    let k := getAdaptiveChunkSize s.diskType
    let r := writeChunks d.notReady k (fileSize + 1) d.capacity fileSize
    let s1 := { s with bytesWritten := s.bytesWritten + r.1 }
    let d2 : Disk := { capacity := r.2.1, notReady := d.notReady, onDisk := i :: d.onDisk }
    match r.2.2 with
    | some e => ⟨s1, d2, some ("file write error: " ++ e), true⟩
    | none =>
      ⟨{ s1 with
          createdFiles := i :: s1.createdFiles,
          freeSpace := s1.freeSpace - fileSize }, d2, none, true⟩

/-- Candidate file size of one loop iteration (engine.go lines 487-506):
a draw in [1GB, min(freeSpace/20, 50GB)] clamped to the free-space
estimate; rand.Int63n is modelled by the draw taken modulo the range. -/
def computeFileSize (draw freeSpace : Nat) : Nat :=
  let maxFileSize0 := freeSpace / 10 / 2
  let cap50 := 50 * 1024 * 1024 * 1024
  let maxFileSize1 := if cap50 < maxFileSize0 then cap50 else maxFileSize0
  let minFileSize := 1024 * 1024 * 1024
  let maxFileSize := if maxFileSize1 < minFileSize then minFileSize else maxFileSize1
  let fileSize :=
    if maxFileSize = minFileSize then minFileSize
    else minFileSize + draw % (maxFileSize - minFileSize)
  if freeSpace < fileSize then freeSpace else fileSize

/-- Source return path that produced an Execute result. -/
inductive ExitKind where
  | loopExit
  | ctxCancel
  | ctxDeadline
  | durTimeout
  | stuck
  | diskFullStop
  | notReadyStop
  | createFail
  | delayCancel
  | delayDeadline
  | iterLimit
  | fuelOut
deriving DecidableEq

/-- Result of WipeSession.Execute: final session and disk state, the
returned error (none = nil), the return path taken, and the artifact
abandoned by a failed write, if any. -/
structure ExecResult where
  session : Session
  disk : Disk
  err : Option String
  exitKind : ExitKind
  failedFile : Option Nat
deriving DecidableEq

/-- The 1GB free-space floor of the session loop (engine.go line 447). -/
def minThreshold : Nat := 1024 * 1024 * 1024

/-- The file-count bound of the session loop (engine.go line 449). -/
def maxFilesExec : Nat := 1000

/-- The iteration bound of the session loop (engine.go line 450). -/
def maxIterations : Nat := 10000

/-- Loop body and recursion of WipeSession.Execute (engine.go lines
446-556), with the session state, the disk state, the file index, the
previous free-space reading and the stuck counter threaded through.
Each iteration: the loop guard; the context check (deadline and
cancellation produce the Russian messages of lines 461, 464); the
MaxDuration check (line 472); the stuck-detection bound (lines 476-485);
the file-size draw; createWipeFile; then the error dispatch of lines
510-522 through IsWindowsError (volume-full terminates the loop with no
error; not-ready and anything else are fatal); the optional cancellable
inter-file pause; and the iteration bound.  The fuel starts at 1001 and
cannot run out because the guard stops at 1000 files. -/
def executeLoop (env : ExecEnv) :
    Nat → Session → Disk → Nat → Nat → Nat → ExecResult
  | 0, s, d, _, _, _ => ⟨s, d, none, .fuelOut, none⟩
  | fuel + 1, s, d, fileIndex, prevFree, stuckCounter =>
    if minThreshold < s.freeSpace ∧ fileIndex ≤ maxFilesExec then
      match env.cancelAt fileIndex with
      | some .deadline => ⟨s, d, some sessionTimeoutMsg, .ctxDeadline, none⟩
      | some .cancelled => ⟨s, d, some sessionCancelMsg, .ctxCancel, none⟩
      | none =>
        if env.timeoutAt fileIndex then ⟨s, d, some sessionTimeoutMsg, .durTimeout, none⟩
        else
          let stuck2 := if s.freeSpace = prevFree then stuckCounter + 1 else 0
          let prev2 := if s.freeSpace = prevFree then prevFree else s.freeSpace
          if s.freeSpace = prevFree ∧ 3 < stuckCounter + 1 then
            ⟨s, d, none, .stuck, none⟩
          else
            let fileSize := computeFileSize (env.draw fileIndex) s.freeSpace
            let fr := createWipeFile env s d fileIndex fileSize
            match fr.err with
            | some e =>
              if IsWindowsError e ERROR_DISK_FULL then
                ⟨fr.session, fr.disk, none, .diskFullStop,
                  if fr.created then some fileIndex else none⟩
              else if IsWindowsError e ERROR_NOT_READY then
                ⟨fr.session, fr.disk, some ("диск недоступен: " ++ e), .notReadyStop,
                  if fr.created then some fileIndex else none⟩
              else
                ⟨fr.session, fr.disk, some ("ошибка создания файла: " ++ e), .createFail,
                  if fr.created then some fileIndex else none⟩
            | none =>
              if 0 < s.fileDelayMs then
                match env.delayCancelAt fileIndex with
                | some .deadline =>
                  ⟨fr.session, fr.disk, some sessionTimeoutMsg, .delayDeadline, none⟩
                | some .cancelled =>
                  ⟨fr.session, fr.disk, some sessionCancelMsg, .delayCancel, none⟩
                | none =>
                  if maxIterations < fileIndex + 1 then
                    ⟨fr.session, fr.disk, none, .iterLimit, none⟩
                  else
                    executeLoop env fuel fr.session fr.disk (fileIndex + 1) prev2 stuck2
              else
                if maxIterations < fileIndex + 1 then
                  ⟨fr.session, fr.disk, none, .iterLimit, none⟩
                else
                  executeLoop env fuel fr.session fr.disk (fileIndex + 1) prev2 stuck2
    else ⟨s, d, none, .loopExit, none⟩

/-- Model of WipeSession.Execute: the loop starts at file index 1 with
the previous free-space reading initialised to the current estimate and
the stuck counter at zero (engine.go lines 448-453). -/
def Execute (env : ExecEnv) (s : Session) (d : Disk) : ExecResult :=
  executeLoop env 1001 s d 1 s.freeSpace 0

/-- Model of WipeSession.Cleanup (engine.go lines 558-566): every path
recorded in CreatedFiles is removed from the disk and the list is
cleared; a failed removal is only logged, so Cleanup has no error
result. -/
def Cleanup (s : Session) (d : Disk) : Session × Disk :=
  ({ s with createdFiles := [] },
   { d with onDisk := d.onDisk.filter (fun f => !(s.createdFiles.contains f)) })

/-! ## Theorems -/

/-- Evaluation of the anomaly-penalty fold: it subtracts 20 per high, 10
per medium and 5 per low anomaly from the running rating. -/
lemma foldl_anomalyFold (l : List String) (r : ℚ) :
    l.foldl anomalyFold r =
      r - 20 * (l.count "high" : ℚ) - 10 * (l.count "medium" : ℚ)
        - 5 * (l.count "low" : ℚ) := by
  induction l generalizing r with
  | nil => simp
  | cons a t ih =>
    rw [List.foldl_cons, ih]
    by_cases h1 : a = "high"
    · subst h1
      simp [anomalyFold, List.count_cons]
      ring
    · by_cases h2 : a = "medium"
      · subst h2
        simp [anomalyFold, List.count_cons, h1]
        ring
      · by_cases h3 : a = "low"
        · subst h3
          simp [anomalyFold, List.count_cons, h1, h2]
          ring
        · simp [anomalyFold, List.count_cons, h1, h2, h3]

/-- C3: the claim says a pass ended by cancellation yields CANCELLED and
a pass ended by deadline or timeout yields PARTIAL.  In the
executeWipeSession path the classification is done by handleWipeError on
the error text; the session's own cancellation and loop-head timeout
messages are Russian and contain none of the Latin substrings limit,
timeout, cancel, so both are classified FAILED (and the pass loop then
breaks).  Only a timeout raised inside createWipeFile, whose English
message contains limit, is classified PARTIAL.  This contradicts the
claimed status derivation and the dead cancel branch shows the intent. -/
theorem c3_handleWipeError_misclassifies :
    handleWipeError sessionCancelMsg = "FAILED" ∧
    handleWipeError sessionTimeoutMsg = "FAILED" ∧
    handleWipeError ("ошибка создания файла: operation time limit reached") = "PARTIAL" := by
  exact ⟨by decide, by decide, by decide⟩

/-- C4 counterexample: a verification run with one high-severity anomaly
and no recovery attempt (for example a basic run whose internal error
was converted into a high anomaly) gets success rate 100 from the code,
while the claimed formula gives 80. -/
theorem c4_rate_counterexample :
    calculateSuccessRate 0 ["high"] 0 = 100 ∧
    specSuccessRate ["high"] 0 = 80 ∧
    calculateSuccessRate 0 ["high"] 0 ≠ specSuccessRate ["high"] 0 := by
  have hh : List.count "high" ["high"] = 1 := by decide
  have hm : List.count "medium" ["high"] = 0 := by decide
  have hl : List.count "low" ["high"] = 0 := by decide
  have hspec : specSuccessRate ["high"] 0 = 80 := by
    unfold specSuccessRate
    rw [hh, hm, hl]
    have h80 : (100 : ℚ) - 20 * ((1 : Nat) : ℚ) - 10 * ((0 : Nat) : ℚ)
        - 5 * ((0 : Nat) : ℚ) - ((0 : ℤ) : ℚ) / 1024 = 80 := by norm_num
    rw [h80, max_eq_right (by norm_num)]
  have hcode : calculateSuccessRate 0 ["high"] 0 = 100 := by
    simp [calculateSuccessRate]
  refine ⟨hcode, hspec, ?_⟩
  rw [hcode, hspec]
  norm_num

/-- C4 amended: when at least one recovery attempt was made, the success
rate is 100 minus 20 per high, 10 per medium and 5 per low anomaly,
minus recovered/1024 with the floor at 0 applied only when the recovered
byte count is positive (anomaly penalties alone can drive the result
negative); when no recovery attempt was made the rate is 100 regardless
of anomalies; and the report is marked verified exactly when the rate is
at least 95. -/
theorem c4_rate_amended (attempts : Nat) (anomalies : List String)
    (recovered : ℤ) (rate : ℚ) (h : 0 < attempts) :
    calculateSuccessRate attempts anomalies recovered =
      (if 0 < recovered then
        max 0 (100 - 20 * (anomalies.count "high" : ℚ)
          - 10 * (anomalies.count "medium" : ℚ)
          - 5 * (anomalies.count "low" : ℚ) - (recovered : ℚ) / 1024)
      else
        100 - 20 * (anomalies.count "high" : ℚ)
          - 10 * (anomalies.count "medium" : ℚ)
          - 5 * (anomalies.count "low" : ℚ)) ∧
    (wipeVerifiedOf rate = true ↔ 95 ≤ rate) := by
  constructor
  · unfold calculateSuccessRate
    rw [if_neg (Nat.pos_iff_ne_zero.mp h)]
    rw [foldl_anomalyFold]
    by_cases hr : 0 < recovered
    · rw [if_pos hr, if_pos hr]
      rcases le_or_lt 0 (100 - 20 * (anomalies.count "high" : ℚ)
          - 10 * (anomalies.count "medium" : ℚ)
          - 5 * (anomalies.count "low" : ℚ) - (recovered : ℚ) / 1024) with hle | hlt
      · rw [if_neg (by linarith), max_eq_right hle]
      · rw [if_pos (by linarith), max_eq_left (by linarith)]
    · rw [if_neg hr, if_neg hr]
  · unfold wipeVerifiedOf
    simp

/-- C4 witness: the amended formula applied at one recovery attempt, one
high anomaly and no recovered bytes, giving rate 80, and the verified
flag tested at rate 96. -/
theorem c4_rate_amended_witness :
    calculateSuccessRate 1 ["high"] 0 =
      (if (0 : ℤ) < 0 then
        max 0 (100 - 20 * ((["high"].count "high" : Nat) : ℚ)
          - 10 * ((["high"].count "medium" : Nat) : ℚ)
          - 5 * ((["high"].count "low" : Nat) : ℚ) - ((0 : ℤ) : ℚ) / 1024)
      else
        100 - 20 * ((["high"].count "high" : Nat) : ℚ)
          - 10 * ((["high"].count "medium" : Nat) : ℚ)
          - 5 * ((["high"].count "low" : Nat) : ℚ)) ∧
    (wipeVerifiedOf 96 = true ↔ (95 : ℚ) ≤ 96) :=
  c4_rate_amended 1 ["high"] 0 96 (by decide)

/-- C5 counterexample: for a two-chunk file, createLargeFile writes the
same 16MiB buffer twice (verbatim reuse within the pass) while drawing
from the random source only once, so the chunk sequence cannot coincide
with the sequence of fresh draws. -/
theorem c5_fresh_chunks_counterexample :
    createLargeFileChunks (List.replicate chunkSizeLarge 7) (2 * chunkSizeLarge) =
      [List.replicate chunkSizeLarge 7, List.replicate chunkSizeLarge 7] ∧
    ¬ chunksFreshlyDrawn
        (createLargeFileChunks (List.replicate chunkSizeLarge 7) (2 * chunkSizeLarge))
        (createLargeFileDraws (List.replicate chunkSizeLarge 7) (2 * chunkSizeLarge)) := by
  have h2 : (2 * chunkSizeLarge) / chunkSizeLarge = 2 := by norm_num [chunkSizeLarge]
  have h0 : (2 * chunkSizeLarge) % chunkSizeLarge = 0 := by norm_num [chunkSizeLarge]
  have hch : createLargeFileChunks (List.replicate chunkSizeLarge 7) (2 * chunkSizeLarge) =
      [List.replicate chunkSizeLarge 7, List.replicate chunkSizeLarge 7] := by
    unfold createLargeFileChunks
    rw [h2, h0, if_pos rfl, List.append_nil]
    rfl
  refine ⟨hch, ?_⟩
  unfold chunksFreshlyDrawn createLargeFileDraws
  rw [hch]
  intro h
  have hlen := congrArg List.length h
  simp at hlen

/-- C5 amended: every chunk createLargeFile writes for a file is the
single per-file crypto/rand draw or a prefix of it (fresh randomness is
per file, not per chunk), exactly one draw is consumed per file, and
full-size chunks of two files whose draws differ are never verbatim
equal, so chunk contents are not reused across files. -/
theorem c5_per_file_draw (r1 r2 : List Nat) (s1 s2 : Nat)
    (hlen1 : r1.length = chunkSizeLarge) (hlen2 : r2.length = chunkSizeLarge)
    (hne : r1 ≠ r2) :
    (∀ c ∈ createLargeFileChunks r1 s1, ∃ k, c = r1.take k) ∧
    (createLargeFileDraws r1 s1).length = 1 ∧
    (∀ c1 ∈ createLargeFileChunks r1 s1, ∀ c2 ∈ createLargeFileChunks r2 s2,
      c1.length = chunkSizeLarge → c2.length = chunkSizeLarge → c1 ≠ c2) := by
  have hmem : ∀ (r : List Nat) (s : Nat), r.length = chunkSizeLarge →
      ∀ c ∈ createLargeFileChunks r s, c = r ∨
        (c = r.take (s % chunkSizeLarge) ∧ c.length = s % chunkSizeLarge ∧
          s % chunkSizeLarge < chunkSizeLarge) := by
    intro r s hlen c hc
    unfold createLargeFileChunks at hc
    rcases List.mem_append.mp hc with hrep | hone
    · exact Or.inl (List.eq_of_mem_replicate hrep)
    · by_cases hz : s % chunkSizeLarge = 0
      · rw [if_pos hz] at hone
        simp at hone
      · rw [if_neg hz] at hone
        simp at hone
        refine Or.inr ⟨hone, ?_, ?_⟩
        · rw [hone, List.length_take, hlen]
          exact min_eq_left (Nat.le_of_lt (Nat.mod_lt s (by decide)))
        · exact Nat.mod_lt s (by decide)
  refine ⟨?_, rfl, ?_⟩
  · intro c hc
    rcases hmem r1 s1 hlen1 c hc with h | ⟨h, _, _⟩
    · exact ⟨r1.length, (List.take_length r1).symm ▸ h⟩
    · exact ⟨s1 % chunkSizeLarge, h⟩
  · intro c1 hc1 c2 hc2 hfull1 hfull2
    have h1 : c1 = r1 := by
      rcases hmem r1 s1 hlen1 c1 hc1 with h | ⟨_, hl, hlt⟩
      · exact h
      · rw [hfull1] at hl
        omega
    have h2 : c2 = r2 := by
      rcases hmem r2 s2 hlen2 c2 hc2 with h | ⟨_, hl, hlt⟩
      · exact h
      · rw [hfull2] at hl
        omega
    rw [h1, h2]
    exact hne

/-- C5 witness: the per-file draw count evaluated for two concrete
distinct 16MiB buffers. -/
theorem c5_per_file_draw_witness :
    (createLargeFileDraws (List.replicate chunkSizeLarge 7) (2 * chunkSizeLarge)).length = 1 :=
  (c5_per_file_draw (List.replicate chunkSizeLarge 7) (List.replicate chunkSizeLarge 8)
    (2 * chunkSizeLarge) (3 * chunkSizeLarge)
    (List.length_replicate _ _) (List.length_replicate _ _)
    (by
      intro h
      have h7 : (7 : Nat) ∈ List.replicate chunkSizeLarge 7 :=
        List.mem_replicate.mpr ⟨by decide, rfl⟩
      rw [h] at h7
      exact absurd (List.mem_replicate.mp h7).2 (by decide))).2.1

/-- C6: with a positive rate R MB/s, the elapsed time since the previous
write plus the pacing sleep is, up to the one-nanosecond truncation of
the time.Duration cast, at least S/(R*1MiB) seconds (in nanoseconds), so
the write cannot complete earlier; when called early the writer sleeps
for exactly the difference; and rate 0 inserts no sleep at all. -/
theorem c6_throttle_bound (R : ℚ) (S : Nat) (elapsedNs : ℤ) (len : Nat) (e : ℤ)
    (hR : 0 < R) (_hS : 0 < S) :
    ((S : ℚ) / (R * 1024 * 1024)) * 1000000000 <
        ((elapsedNs + pacingSleepNs R S elapsedNs : ℤ) : ℚ) + 1 ∧
    (elapsedNs < expectedWriteNs R S →
      pacingSleepNs R S elapsedNs = expectedWriteNs R S - elapsedNs) ∧
    pacingSleepNs 0 len e = 0 := by
  have hfl : ((S : ℚ) / (R * 1024 * 1024)) * 1000000000 <
      ((expectedWriteNs R S : ℤ) : ℚ) + 1 := by
    unfold expectedWriteNs
    exact Int.lt_floor_add_one _
  refine ⟨?_, ?_, ?_⟩
  · unfold pacingSleepNs
    rw [if_pos hR]
    by_cases hlt : elapsedNs < expectedWriteNs R S
    · rw [if_pos hlt]
      have : elapsedNs + (expectedWriteNs R S - elapsedNs) = expectedWriteNs R S := by ring
      rw [this]
      exact hfl
    · rw [if_neg hlt]
      push_neg at hlt
      have : ((expectedWriteNs R S : ℤ) : ℚ) ≤ ((elapsedNs + 0 : ℤ) : ℚ) := by
        exact_mod_cast by omega
      linarith
  · intro hlt
    unfold pacingSleepNs
    rw [if_pos hR, if_pos hlt]
  · unfold pacingSleepNs
    norm_num

/-- C6 witness: the bound applied to a 1MiB write at 1 MB/s with zero
elapsed time. -/
theorem c6_throttle_bound_witness :
    ((1048576 : ℚ) / (1 * 1024 * 1024)) * 1000000000 <
        (((0 : ℤ) + pacingSleepNs 1 1048576 0 : ℤ) : ℚ) + 1 ∧
    ((0 : ℤ) < expectedWriteNs 1 1048576 →
      pacingSleepNs 1 1048576 0 = expectedWriteNs 1 1048576 - 0) ∧
    pacingSleepNs 0 4096 7 = 0 :=
  c6_throttle_bound 1 1048576 0 4096 7 (by norm_num) (by norm_num)

/-- C7: the maintenance report status derived from the collected phase
results is COMPLETED when no phase failed, PARTIAL when there is at
least one success and at least one failure, FAILED when there is no
success but at least one failure; in particular two completed phases
give COMPLETED, one completed and one failed give PARTIAL, and two
failed give FAILED. -/
theorem c7_report_status (results : List String) :
    (deriveReportStatus ["COMPLETED", "COMPLETED"] = "COMPLETED" ∧
     deriveReportStatus ["COMPLETED", "FAILED"] = "PARTIAL" ∧
     deriveReportStatus ["FAILED", "FAILED"] = "FAILED") ∧
    ((countPhaseResults results).2 = 0 → deriveReportStatus results = "COMPLETED") ∧
    (0 < (countPhaseResults results).1 → 0 < (countPhaseResults results).2 →
      deriveReportStatus results = "PARTIAL") ∧
    ((countPhaseResults results).1 = 0 → 0 < (countPhaseResults results).2 →
      deriveReportStatus results = "FAILED") := by
  refine ⟨⟨by decide, by decide, by decide⟩, ?_, ?_, ?_⟩
  · intro h
    unfold deriveReportStatus
    rw [if_pos h]
  · intro hs hf
    unfold deriveReportStatus
    rw [if_neg (by omega), if_pos hs]
  · intro hs hf
    unfold deriveReportStatus
    rw [if_neg (by omega), if_neg (by omega)]

/-- C7 witness: the PARTIAL case applied to the concrete outcome list
with one completed and one failed phase. -/
theorem c7_report_status_witness :
    deriveReportStatus ["COMPLETED", "FAILED"] = "PARTIAL" :=
  (c7_report_status ["COMPLETED", "FAILED"]).2.2.1 (by decide) (by decide)

/-- C9: whenever the recovery-attempt counter is zero the computed
success rate is exactly 100 and the report is marked verified, no matter
which anomalies were recorded or how many bytes were recovered; in
particular a basic-level verification, which never touches the attempt
counter, always reports attempts 0, rate 100 and verified true. -/
theorem c9_zero_attempts_always_verified (anomalies : List String) (recovered : ℤ)
    (diskFound : Bool) (freeSize bytesWiped : Nat) (speedMBps : ℚ) :
    calculateSuccessRate 0 anomalies recovered = 100 ∧
    wipeVerifiedOf (calculateSuccessRate 0 anomalies recovered) = true ∧
    (verifyReportBasic diskFound freeSize bytesWiped speedMBps).1 = 0 ∧
    (verifyReportBasic diskFound freeSize bytesWiped speedMBps).2.2.1 = 100 ∧
    (verifyReportBasic diskFound freeSize bytesWiped speedMBps).2.2.2 = true := by
  have h100 : ∀ (a : List String) (rec : ℤ), calculateSuccessRate 0 a rec = 100 := by
    intro a rec
    unfold calculateSuccessRate
    simp
  have hv : wipeVerifiedOf 100 = true := by
    unfold wipeVerifiedOf
    norm_num
  refine ⟨h100 anomalies recovered, ?_, rfl, ?_, ?_⟩
  · rw [h100]
    exact hv
  · unfold verifyReportBasic
    simp only [h100]
  · unfold verifyReportBasic
    simp only [h100, hv]

/-- C10: GetStrategy is total over arbitrary mode strings: any mode
other than the three recognized ones silently receives the Standard
strategy, whose policy parameters are usable (positive file bound and
free-space floor). -/
theorem c10_strategy_total (mode : String)
    (h1 : mode ≠ "standard") (h2 : mode ≠ "sdelete") (h3 : mode ≠ "cipher") :
    GetStrategy mode = WipeStrategyKind.standard ∧
    0 < GetMaxFiles (GetStrategy mode) ∧ 0 < GetMinFreeSpace (GetStrategy mode) := by
  have hs : GetStrategy mode = WipeStrategyKind.standard := by
    unfold GetStrategy
    rw [if_neg (by simpa using h1), if_neg (by simpa using h2), if_neg (by simpa using h3)]
  rw [hs]
  exact ⟨rfl, by decide, by decide⟩

/-- C10 witness: an unrecognized mode string receives the Standard
strategy. -/
theorem c10_strategy_total_witness :
    GetStrategy "bogus" = WipeStrategyKind.standard ∧
    0 < GetMaxFiles (GetStrategy "bogus") ∧ 0 < GetMinFreeSpace (GetStrategy "bogus") :=
  c10_strategy_total "bogus" (by decide) (by decide) (by decide)

/-- Unfolding equation of getPoolSize when a standard size class fits. -/
lemma getPoolSize_eq_of_find (s p : Nat)
    (hf : poolSizes.find? (fun q => s ≤ q) = some p) : getPoolSize s = p := by
  unfold getPoolSize
  rw [hf]

/-- Unfolding equation of getPoolSize for oversize requests. -/
lemma getPoolSize_eq_of_none (s : Nat)
    (hf : poolSizes.find? (fun q => s ≤ q) = none) :
    getPoolSize s = ((s + 4095) / 4096) * 4096 := by
  unfold getPoolSize
  rw [hf]

/-- A request never exceeds its bucket size. -/
lemma getPoolSize_ge (s : Nat) : s ≤ getPoolSize s := by
  cases hf : poolSizes.find? (fun q => s ≤ q) with
  | some p =>
    rw [getPoolSize_eq_of_find s p hf]
    have := List.find?_some hf
    simpa using this
  | none =>
    rw [getPoolSize_eq_of_none s hf]
    have h := Nat.div_add_mod (s + 4095) 4096
    have hr : (s + 4095) % 4096 < 4096 := Nat.mod_lt _ (by decide)
    omega

/-- Bucket sizes are fixed points of the size-class function. -/
lemma getPoolSize_idem (s : Nat) : getPoolSize (getPoolSize s) = getPoolSize s := by
  cases hf : poolSizes.find? (fun q => s ≤ q) with
  | some p =>
    rw [getPoolSize_eq_of_find s p hf]
    have hmem : p ∈ poolSizes := List.mem_of_find?_eq_some hf
    simp only [poolSizes, List.mem_cons, List.not_mem_nil, or_false] at hmem
    rcases hmem with h | h | h | h | h | h | h | h <;> subst h <;> decide
  | none =>
    rw [getPoolSize_eq_of_none s hf]
    have hnone : ∀ x ∈ poolSizes, ¬ s ≤ x := by
      intro x hx
      have := List.find?_eq_none.mp hf x hx
      simpa using this
    have hbig : 16777216 < s := by
      have := hnone 16777216 (by simp [poolSizes])
      omega
    have hge : s ≤ ((s + 4095) / 4096) * 4096 := by
      have h := Nat.div_add_mod (s + 4095) 4096
      have hr : (s + 4095) % 4096 < 4096 := Nat.mod_lt _ (by decide)
      omega
    have hf2 : poolSizes.find? (fun q => ((s + 4095) / 4096) * 4096 ≤ q) = none := by
      apply List.find?_eq_none.mpr
      intro x hx
      simp only [poolSizes, List.mem_cons, List.not_mem_nil, or_false] at hx
      simp only [decide_eq_true_eq]
      rcases hx with h | h | h | h | h | h | h | h <;> subst h <;> omega
    rw [getPoolSize_eq_of_none _ hf2]
    omega

/-- Unfolding equation of getBuffer when the bucket is missing. -/
lemma getBuffer_eq_none (P : BufferPoolState) (size : Nat)
    (hP : P (getPoolSize size) = none) :
    getBuffer P size = (updatePool P (getPoolSize size) (some []),
      ⟨List.replicate size 0, List.replicate (getPoolSize size - size) 0⟩) := by
  simp only [getBuffer]
  rw [hP]

/-- Unfolding equation of getBuffer when the bucket is empty. -/
lemma getBuffer_eq_nil (P : BufferPoolState) (size : Nat)
    (hP : P (getPoolSize size) = some []) :
    getBuffer P size =
      (P, ⟨List.replicate size 0, List.replicate (getPoolSize size - size) 0⟩) := by
  simp only [getBuffer]
  rw [hP]

/-- Unfolding equation of getBuffer when a stored buffer is available. -/
lemma getBuffer_eq_cons (P : BufferPoolState) (size : Nat) (b : List Nat)
    (rest : List (List Nat)) (hP : P (getPoolSize size) = some (b :: rest)) :
    getBuffer P size = (updatePool P (getPoolSize size) (some rest),
      ⟨b.take size, b.drop size⟩) := by
  simp only [getBuffer]
  rw [hP]

/-- Removing one bucket entry, or touching only other buckets, preserves
the pool invariant. -/
lemma updatePool_inv (P : BufferPoolState) (k0 : Nat) (bs0 : List (List Nat))
    (hInv : PoolInv P)
    (h0 : ∀ b ∈ bs0, b.length = k0 ∧ ∀ x ∈ b, x = 0) :
    PoolInv (updatePool P k0 (some bs0)) := by
  intro k bs hk b hb
  unfold updatePool at hk
  by_cases hkp : k = k0
  · subst hkp
    rw [if_pos rfl] at hk
    obtain rfl : bs = bs0 := by injection hk with h; exact h.symm
    exact h0 b hb
  · rw [if_neg hkp] at hk
    exact hInv k bs hk b hb

/-- Acquisition facts: the invariant is preserved, the visible slice has
the requested length, visible slice plus hidden tail fill the bucket
capacity, and both parts are all-zero. -/
lemma getBuffer_spec (P : BufferPoolState) (size : Nat) (hInv : PoolInv P) :
    PoolInv (getBuffer P size).1 ∧
    (getBuffer P size).2.data.length = size ∧
    (getBuffer P size).2.data.length + (getBuffer P size).2.tl.length = getPoolSize size ∧
    (∀ x ∈ (getBuffer P size).2.data, x = 0) ∧
    (∀ x ∈ (getBuffer P size).2.tl, x = 0) := by
  have hple := getPoolSize_ge size
  cases hP : P (getPoolSize size) with
  | none =>
    rw [getBuffer_eq_none P size hP]
    refine ⟨updatePool_inv P _ [] hInv (by simp), by simp, by simp; omega, ?_, ?_⟩
    · intro x hx
      exact List.eq_of_mem_replicate hx
    · intro x hx
      exact List.eq_of_mem_replicate hx
  | some stack =>
    cases stack with
    | nil =>
      rw [getBuffer_eq_nil P size hP]
      refine ⟨hInv, by simp, by simp; omega, ?_, ?_⟩
      · intro x hx
        exact List.eq_of_mem_replicate hx
      · intro x hx
        exact List.eq_of_mem_replicate hx
    | cons b rest =>
      obtain ⟨hblen, hbz⟩ := hInv _ _ hP b (List.mem_cons_self b rest)
      rw [getBuffer_eq_cons P size b rest hP]
      refine ⟨?_, ?_, ?_, ?_, ?_⟩
      · exact updatePool_inv P _ rest hInv
          (fun b2 hb2 => hInv _ _ hP b2 (List.mem_cons_of_mem b hb2))
      · simp [hblen]
        omega
      · simp [hblen]
        omega
      · intro x hx
        exact hbz x (List.take_subset size b hx)
      · intro x hx
        exact hbz x (List.drop_subset size b hx)

/-- Unfolding equation of putBuffer when the bucket exists. -/
lemma putBuffer_eq_some (P : BufferPoolState) (b : PoolBuffer)
    (stack : List (List Nat))
    (hP : P (getPoolSize (b.data.length + b.tl.length)) = some stack) :
    putBuffer P b = updatePool P (getPoolSize (b.data.length + b.tl.length))
      (some ((List.replicate b.data.length 0 ++ b.tl) :: stack)) := by
  simp only [putBuffer]
  rw [hP]

/-- Unfolding equation of putBuffer when the bucket is missing: the
buffer is dropped. -/
lemma putBuffer_eq_none (P : BufferPoolState) (b : PoolBuffer)
    (hP : P (getPoolSize (b.data.length + b.tl.length)) = none) :
    putBuffer P b = P := by
  simp only [putBuffer]
  rw [hP]

/-- Release facts: when the released buffer fills its bucket capacity
exactly and its hidden tail is all-zero, the zero-on-release step of
putBuffer preserves the pool invariant. -/
lemma putBuffer_inv (P : BufferPoolState) (b : PoolBuffer) (hInv : PoolInv P)
    (hcap : getPoolSize (b.data.length + b.tl.length) = b.data.length + b.tl.length)
    (htl : ∀ x ∈ b.tl, x = 0) :
    PoolInv (putBuffer P b) := by
  cases hP : P (getPoolSize (b.data.length + b.tl.length)) with
  | none =>
    rw [putBuffer_eq_none P b hP]
    exact hInv
  | some stack =>
    rw [putBuffer_eq_some P b stack hP]
    apply updatePool_inv P _ _ hInv
    intro b2 hb2
    rcases List.mem_cons.mp hb2 with h | h
    · subst h
      constructor
      · simp [hcap]
      · intro x hx
        rcases List.mem_append.mp hx with h | h
        · exact List.eq_of_mem_replicate h
        · exact htl x h
    · exact hInv _ _ hP b2 h

/-- C8: acquire a buffer, fill its visible slice with arbitrary data,
release it, and the next acquisition from the same size-class bucket
hands back an all-zero slice: release zeroes the buffer before storing
it, so a pool satisfying the all-zero invariant keeps satisfying it and
every acquisition reads back zeros. -/
theorem c8_pool_zeroing (P : BufferPoolState) (size size2 : Nat) (data : List Nat)
    (hInv : PoolInv P) (hdata : data.length = size)
    (_hb : getPoolSize size2 = getPoolSize size) :
    (getBuffer (putBuffer (getBuffer P size).1 ⟨data, (getBuffer P size).2.tl⟩) size2).2.data
      = List.replicate size2 0 := by
  obtain ⟨hInv1, hdlen, hcap, _, htz⟩ := getBuffer_spec P size hInv
  have hcap2 : getPoolSize (data.length + (getBuffer P size).2.tl.length)
      = data.length + (getBuffer P size).2.tl.length := by
    rw [hdata]
    have hsum : size + (getBuffer P size).2.tl.length = getPoolSize size := by omega
    rw [hsum, getPoolSize_idem]
  have hInv2 := putBuffer_inv (getBuffer P size).1 ⟨data, (getBuffer P size).2.tl⟩
    hInv1 hcap2 htz
  obtain ⟨_, hlen2, _, hz2, _⟩ := getBuffer_spec _ size2 hInv2
  exact List.eq_replicate_iff.mpr ⟨hlen2, hz2⟩

/-- C8 witness: the zeroing property applied to a fresh pool, a 1000-byte
acquisition filled with sevens, and a following 1024-byte acquisition
from the same 1KiB bucket. -/
theorem c8_pool_zeroing_witness :
    (getBuffer (putBuffer (getBuffer (fun _ => none : BufferPoolState) 1000).1
        ⟨List.replicate 1000 7, (getBuffer (fun _ => none : BufferPoolState) 1000).2.tl⟩)
      1024).2.data = List.replicate 1024 0 :=
  c8_pool_zeroing (fun _ => none) 1000 1024 (List.replicate 1000 7)
    (fun _ _ h => Option.noConfusion h) (List.length_replicate _ _) (by decide)

/-- Chunk-loop facts: bytes written plus remaining capacity equal the
starting capacity (a write moves bytes one for one), a volume-full error
leaves the capacity exhausted, and the only possible errors are
volume-full, device-not-ready and the unreachable fuel marker. -/
lemma writeChunks_spec (nr : Bool) (k : Nat) :
    ∀ (fuel cap remaining : Nat),
      (writeChunks nr k fuel cap remaining).1 +
          (writeChunks nr k fuel cap remaining).2.1 = cap ∧
      ((writeChunks nr k fuel cap remaining).2.2 = some diskFullMsg →
        (writeChunks nr k fuel cap remaining).2.1 = 0) ∧
      ((writeChunks nr k fuel cap remaining).2.2 = none ∨
        (writeChunks nr k fuel cap remaining).2.2 = some diskFullMsg ∨
        (writeChunks nr k fuel cap remaining).2.2 = some notReadyMsg ∨
        (writeChunks nr k fuel cap remaining).2.2 = some "chunk fuel exhausted") := by
  intro fuel
  induction fuel with
  | zero =>
    intro cap remaining
    refine ⟨by simp [writeChunks], ?_, by right; right; right; rfl⟩
    intro h
    have h2 : some "chunk fuel exhausted" = some diskFullMsg := h
    injection h2 with h3
    exact absurd h3 (by decide)
  | succ n ih =>
    intro cap remaining
    by_cases h0 : remaining = 0
    · have he : writeChunks nr k (n + 1) cap remaining = (0, cap, none) := by
        simp only [writeChunks]
        rw [if_pos h0]
      rw [he]
      exact ⟨by simp, by simp, Or.inl rfl⟩
    · by_cases hnr : nr = true
      · have he : writeChunks nr k (n + 1) cap remaining = (0, cap, some notReadyMsg) := by
          simp only [writeChunks]
          rw [if_neg h0, if_pos hnr]
        rw [he]
        refine ⟨by simp, ?_, by right; right; left; rfl⟩
        intro h
        have h2 : some notReadyMsg = some diskFullMsg := h
        injection h2 with h3
        exact absurd h3 (by decide)
      · by_cases hle : min k remaining ≤ cap
        · have he : writeChunks nr k (n + 1) cap remaining =
              (min k remaining +
                (writeChunks nr k n (cap - min k remaining) (remaining - min k remaining)).1,
               (writeChunks nr k n (cap - min k remaining) (remaining - min k remaining)).2.1,
               (writeChunks nr k n (cap - min k remaining) (remaining - min k remaining)).2.2) := by
            simp only [writeChunks]
            rw [if_neg h0, if_neg hnr, if_pos hle]
          rw [he]
          obtain ⟨ih1, ih2, ih3⟩ := ih (cap - min k remaining) (remaining - min k remaining)
          exact ⟨by dsimp only; omega, fun h => ih2 h, ih3⟩
        · have he : writeChunks nr k (n + 1) cap remaining = (cap, 0, some diskFullMsg) := by
            simp only [writeChunks]
            rw [if_neg h0, if_neg hnr, if_neg hle]
          rw [he]
          exact ⟨by simp, fun _ => rfl, Or.inr (Or.inl rfl)⟩

/-- Facts about one createWipeFile call: bytes are conserved against the
disk capacity; on success the artifact is both on disk and recorded; on
any error it is never recorded, it is on disk exactly when it was
created (every path except the pre-create timeout), and an error the
Windows classifier recognises as volume-full implies the capacity was
exhausted. -/
lemma createWipeFile_spec (env : ExecEnv) (s : Session) (d : Disk) (i fileSize : Nat) :
    (createWipeFile env s d i fileSize).session.bytesWritten +
        (createWipeFile env s d i fileSize).disk.capacity = s.bytesWritten + d.capacity ∧
    ((createWipeFile env s d i fileSize).err = none →
      (createWipeFile env s d i fileSize).session.createdFiles = i :: s.createdFiles ∧
      (createWipeFile env s d i fileSize).disk.onDisk = i :: d.onDisk) ∧
    (∀ e, (createWipeFile env s d i fileSize).err = some e →
      (createWipeFile env s d i fileSize).session.createdFiles = s.createdFiles ∧
      ((createWipeFile env s d i fileSize).created = true →
        (createWipeFile env s d i fileSize).disk.onDisk = i :: d.onDisk) ∧
      ((createWipeFile env s d i fileSize).created = false →
        (createWipeFile env s d i fileSize).disk.onDisk = d.onDisk) ∧
      (IsWindowsError e ERROR_DISK_FULL = true →
        (createWipeFile env s d i fileSize).disk.capacity = 0)) := by
  by_cases ht : env.fileTimeoutAt i = true
  · have he : createWipeFile env s d i fileSize =
        ⟨s, d, some "operation time limit reached", false⟩ := by
      simp only [createWipeFile]
      rw [if_pos ht]
    rw [he]
    refine ⟨rfl, by simp, ?_⟩
    intro e he2
    have he3 : some "operation time limit reached" = some e := he2
    injection he3 with he4
    subst he4
    refine ⟨rfl, by simp, fun _ => rfl, ?_⟩
    intro hcl
    exact absurd hcl (by decide)
  · obtain ⟨hcons, hdf0, hcases⟩ :=
      writeChunks_spec d.notReady (getAdaptiveChunkSize s.diskType)
        (fileSize + 1) d.capacity fileSize
    cases hw : (writeChunks d.notReady (getAdaptiveChunkSize s.diskType)
        (fileSize + 1) d.capacity fileSize).2.2 with
    | none =>
      have he : createWipeFile env s d i fileSize =
          ⟨⟨s.freeSpace - fileSize,
            s.bytesWritten + (writeChunks d.notReady (getAdaptiveChunkSize s.diskType)
              (fileSize + 1) d.capacity fileSize).1,
            i :: s.createdFiles, s.fileDelayMs, s.diskType⟩,
           ⟨(writeChunks d.notReady (getAdaptiveChunkSize s.diskType)
              (fileSize + 1) d.capacity fileSize).2.1,
            d.notReady, i :: d.onDisk⟩, none, true⟩ := by
        simp only [createWipeFile]
        rw [if_neg ht, hw]
      rw [he]
      refine ⟨by dsimp only; omega, fun _ => ⟨rfl, rfl⟩, ?_⟩
      intro e he2
      exact absurd he2 (by simp)
    | some e0 =>
      have he : createWipeFile env s d i fileSize =
          ⟨⟨s.freeSpace,
            s.bytesWritten + (writeChunks d.notReady (getAdaptiveChunkSize s.diskType)
              (fileSize + 1) d.capacity fileSize).1,
            s.createdFiles, s.fileDelayMs, s.diskType⟩,
           ⟨(writeChunks d.notReady (getAdaptiveChunkSize s.diskType)
              (fileSize + 1) d.capacity fileSize).2.1,
            d.notReady, i :: d.onDisk⟩,
           some ("file write error: " ++ e0), true⟩ := by
        simp only [createWipeFile]
        rw [if_neg ht, hw]
      rw [he]
      refine ⟨by dsimp only; omega, by simp, ?_⟩
      intro e he2
      have he3 : some ("file write error: " ++ e0) = some e := he2
      injection he3 with he4
      subst he4
      refine ⟨rfl, fun _ => rfl, by simp, ?_⟩
      intro hcl
      rcases hcases with h | h | h | h
      · rw [hw] at h
        exact absurd h (by simp)
      · rw [hw] at h
        injection h with h2
        subst h2
        exact hdf0 hw
      · rw [hw] at h
        injection h with h2
        subst h2
        exact absurd hcl (by decide)
      · rw [hw] at h
        injection h with h2
        subst h2
        exact absurd hcl (by decide)

/-- Master invariant of the session loop.  Starting from a state where
the artifacts on disk are exactly the recorded ones and every recorded
index is below the current file index: bytes written plus remaining
capacity are conserved; on return the artifacts on disk are the recorded
ones plus, possibly, the single artifact abandoned by a failed write,
and that artifact is never among the recorded ones; a return through the
volume-full classification returns nil with the capacity exhausted; and
a return through the not-ready classification returns an error. -/
lemma executeLoop_spec (env : ExecEnv) :
    ∀ (fuel : Nat) (s : Session) (d : Disk) (fi pf sc : Nat) (r : ExecResult),
      executeLoop env fuel s d fi pf sc = r →
      d.onDisk = s.createdFiles →
      (∀ j ∈ s.createdFiles, j < fi) →
      r.session.bytesWritten + r.disk.capacity = s.bytesWritten + d.capacity ∧
      r.disk.onDisk = r.failedFile.toList ++ r.session.createdFiles ∧
      (∀ i, r.failedFile = some i → i ∉ r.session.createdFiles) ∧
      (r.exitKind = ExitKind.diskFullStop → r.err = none ∧ r.disk.capacity = 0) ∧
      (r.exitKind = ExitKind.notReadyStop → r.err ≠ none) := by
  intro fuel
  induction fuel with
  | zero =>
    intro s d fi pf sc r hr hsync _hfresh
    have hr2 : (⟨s, d, none, ExitKind.fuelOut, none⟩ : ExecResult) = r := hr
    subst hr2
    exact ⟨rfl, by simp [hsync], by intro i h; simp at h, by intro h; simp at h,
      by intro h; simp at h⟩
  | succ n ih =>
    intro s d fi pf sc r hr hsync hfresh
    simp only [executeLoop] at hr
    split at hr
    case isFalse hg =>
      subst hr
      exact ⟨rfl, by simp [hsync], by intro i h; simp at h, by intro h; simp at h,
        by intro h; simp at h⟩
    case isTrue hg =>
      split at hr
      case h_1 heq =>
        subst hr
        exact ⟨rfl, by simp [hsync], by intro i h; simp at h, by intro h; simp at h,
          by intro h; simp at h⟩
      case h_2 heq =>
        subst hr
        exact ⟨rfl, by simp [hsync], by intro i h; simp at h, by intro h; simp at h,
          by intro h; simp at h⟩
      case h_3 heq =>
        split at hr
        case isTrue hT =>
          subst hr
          exact ⟨rfl, by simp [hsync], by intro i h; simp at h, by intro h; simp at h,
            by intro h; simp at h⟩
        case isFalse hT =>
          split at hr
          case isTrue hS =>
            subst hr
            exact ⟨rfl, by simp [hsync], by intro i h; simp at h, by intro h; simp at h,
              by intro h; simp at h⟩
          case isFalse hS =>
            obtain ⟨hcons, hok, herr⟩ := createWipeFile_spec env s d fi
              (computeFileSize (env.draw fi) s.freeSpace)
            split at hr
            case h_1 e hfe =>
              obtain ⟨hcf, hcT, hcF, hclass⟩ := herr e hfe
              split at hr
              case isTrue hdf =>
                subst hr
                refine ⟨hcons, ?_, ?_, fun _ => ⟨rfl, hclass hdf⟩, by intro h; simp at h⟩
                · cases hcr : (createWipeFile env s d fi
                      (computeFileSize (env.draw fi) s.freeSpace)).created with
                  | true => simp [hcr, hcT hcr, hcf, hsync]
                  | false => simp [hcr, hcF hcr, hcf, hsync]
                · intro i hi
                  cases hcr : (createWipeFile env s d fi
                      (computeFileSize (env.draw fi) s.freeSpace)).created with
                  | true =>
                    rw [hcr] at hi
                    simp at hi
                    subst hi
                    rw [hcf]
                    intro hmem
                    exact absurd (hfresh _ hmem) (lt_irrefl _)
                  | false =>
                    rw [hcr] at hi
                    simp at hi
              case isFalse hdf =>
                split at hr
                case isTrue hnr =>
                  subst hr
                  refine ⟨hcons, ?_, ?_, by intro h; simp at h, fun _ => by simp⟩
                  · cases hcr : (createWipeFile env s d fi
                        (computeFileSize (env.draw fi) s.freeSpace)).created with
                    | true => simp [hcr, hcT hcr, hcf, hsync]
                    | false => simp [hcr, hcF hcr, hcf, hsync]
                  · intro i hi
                    cases hcr : (createWipeFile env s d fi
                        (computeFileSize (env.draw fi) s.freeSpace)).created with
                    | true =>
                      rw [hcr] at hi
                      simp at hi
                      subst hi
                      rw [hcf]
                      intro hmem
                      exact absurd (hfresh _ hmem) (lt_irrefl _)
                    | false =>
                      rw [hcr] at hi
                      simp at hi
                case isFalse hnr =>
                  subst hr
                  refine ⟨hcons, ?_, ?_, by intro h; simp at h, by intro h; simp at h⟩
                  · cases hcr : (createWipeFile env s d fi
                        (computeFileSize (env.draw fi) s.freeSpace)).created with
                    | true => simp [hcr, hcT hcr, hcf, hsync]
                    | false => simp [hcr, hcF hcr, hcf, hsync]
                  · intro i hi
                    cases hcr : (createWipeFile env s d fi
                        (computeFileSize (env.draw fi) s.freeSpace)).created with
                    | true =>
                      rw [hcr] at hi
                      simp at hi
                      subst hi
                      rw [hcf]
                      intro hmem
                      exact absurd (hfresh _ hmem) (lt_irrefl _)
                    | false =>
                      rw [hcr] at hi
                      simp at hi
            case h_2 hfe =>
              obtain ⟨hcf2, hod2⟩ := hok hfe
              have hsync2 : (createWipeFile env s d fi
                  (computeFileSize (env.draw fi) s.freeSpace)).disk.onDisk =
                  (createWipeFile env s d fi
                    (computeFileSize (env.draw fi) s.freeSpace)).session.createdFiles := by
                rw [hod2, hcf2, hsync]
              have hfresh2 : ∀ j ∈ (createWipeFile env s d fi
                  (computeFileSize (env.draw fi) s.freeSpace)).session.createdFiles,
                  j < fi + 1 := by
                rw [hcf2]
                intro j hj
                rcases List.mem_cons.mp hj with h | h
                · omega
                · have := hfresh j h
                  omega
              split at hr
              case isTrue hdel =>
                split at hr
                case h_1 heq2 =>
                  subst hr
                  exact ⟨hcons, by simp [hod2, hcf2, hsync], by intro i h; simp at h,
                    by intro h; simp at h, by intro h; simp at h⟩
                case h_2 heq2 =>
                  subst hr
                  exact ⟨hcons, by simp [hod2, hcf2, hsync], by intro i h; simp at h,
                    by intro h; simp at h, by intro h; simp at h⟩
                case h_3 heq2 =>
                  split at hr
                  case isTrue hil =>
                    subst hr
                    exact ⟨hcons, by simp [hod2, hcf2, hsync], by intro i h; simp at h,
                      by intro h; simp at h, by intro h; simp at h⟩
                  case isFalse hil =>
                    obtain ⟨ih1, ih2, ih3, ih4, ih5⟩ := ih _ _ (fi + 1) _ _ r hr
                      hsync2 hfresh2
                    exact ⟨by omega, ih2, ih3, ih4, ih5⟩
              case isFalse hdel =>
                split at hr
                case isTrue hil =>
                  subst hr
                  exact ⟨hcons, by simp [hod2, hcf2, hsync], by intro i h; simp at h,
                    by intro h; simp at h, by intro h; simp at h⟩
                case isFalse hil =>
                  obtain ⟨ih1, ih2, ih3, ih4, ih5⟩ := ih _ _ (fi + 1) _ _ r hr
                    hsync2 hfresh2
                  exact ⟨by omega, ih2, ih3, ih4, ih5⟩

/-- C1: for a fresh session on a disk with positive writable free space,
a write error that IsWindowsError classifies as the volume-full
condition (the diskFullStop return path) ends Execute normally: no error
is returned and the bytes written are positive (they equal the whole
initial free space, by conservation against the exhausted capacity);
whereas a write error classified as device-not-ready (the notReadyStop
return path) makes Execute return a fatal error. -/
theorem c1_volume_full_is_success (env : ExecEnv) (s : Session) (d : Disk)
    (hbw : s.bytesWritten = 0) (hcap : 0 < d.capacity) (hcf : s.createdFiles = [])
    (hod : d.onDisk = []) :
    ((Execute env s d).exitKind = ExitKind.diskFullStop →
      (Execute env s d).err = none ∧ 0 < (Execute env s d).session.bytesWritten) ∧
    ((Execute env s d).exitKind = ExitKind.notReadyStop →
      (Execute env s d).err ≠ none) := by
  obtain ⟨h1, _h2, _h3, h4, h5⟩ := executeLoop_spec env 1001 s d 1 s.freeSpace 0
    (Execute env s d) rfl (by rw [hod, hcf]) (by rw [hcf]; simp)
  refine ⟨?_, h5⟩
  intro hk
  obtain ⟨he, hc0⟩ := h4 hk
  exact ⟨he, by omega⟩

/-- C1 witness: a session with a 2GB free-space estimate on an SSD disk
whose actual capacity is 3 bytes hits the volume-full condition on the
first artifact and exits successfully with 3 bytes written; the same
session on a not-ready device returns a fatal error. -/
theorem c1_volume_full_is_success_witness :
    ((Execute ⟨fun _ => none, fun _ => false, fun _ => false, fun _ => none, fun _ => 0⟩
        ⟨2147483648, 0, [], 0, "SSD"⟩ ⟨3, false, []⟩).err = none ∧
      0 < (Execute ⟨fun _ => none, fun _ => false, fun _ => false, fun _ => none, fun _ => 0⟩
        ⟨2147483648, 0, [], 0, "SSD"⟩ ⟨3, false, []⟩).session.bytesWritten) ∧
    (Execute ⟨fun _ => none, fun _ => false, fun _ => false, fun _ => none, fun _ => 0⟩
        ⟨2147483648, 0, [], 0, "SSD"⟩ ⟨1000000, true, []⟩).err ≠ none :=
  ⟨(c1_volume_full_is_success _ ⟨2147483648, 0, [], 0, "SSD"⟩ ⟨3, false, []⟩
      rfl (by decide) rfl rfl).1 (by decide),
   (c1_volume_full_is_success _ ⟨2147483648, 0, [], 0, "SSD"⟩ ⟨1000000, true, []⟩
      rfl (by decide) rfl rfl).2 (by decide)⟩

/-- C2 counterexample: a session whose first artifact hits the
volume-full write error returns successfully, yet that artifact was
never recorded in CreatedFiles (recording happens only after a fully
successful write), so after Cleanup the artifact still exists on disk. -/
theorem c2_cleanup_counterexample :
    (Execute ⟨fun _ => none, fun _ => false, fun _ => false, fun _ => none, fun _ => 0⟩
        ⟨2147483648, 0, [], 0, "SSD"⟩ ⟨3, false, []⟩).err = none ∧
    (Execute ⟨fun _ => none, fun _ => false, fun _ => false, fun _ => none, fun _ => 0⟩
        ⟨2147483648, 0, [], 0, "SSD"⟩ ⟨3, false, []⟩).session.createdFiles = [] ∧
    (Cleanup (Execute ⟨fun _ => none, fun _ => false, fun _ => false, fun _ => none,
          fun _ => 0⟩ ⟨2147483648, 0, [], 0, "SSD"⟩ ⟨3, false, []⟩).session
        (Execute ⟨fun _ => none, fun _ => false, fun _ => false, fun _ => none,
          fun _ => 0⟩ ⟨2147483648, 0, [], 0, "SSD"⟩ ⟨3, false, []⟩).disk).2.onDisk
      = [1] := by
  exact ⟨by decide, by decide, by decide⟩

/-- C2 amended: after any Execute run from a fresh session, Cleanup
removes every artifact recorded in CreatedFiles from the disk (removal
failures are only logged: Cleanup has no error result in the model, as
in the code), and what survives is exactly the at-most-one artifact
whose write failed mid-file, which is never recorded. -/
theorem c2_cleanup_removes_recorded (env : ExecEnv) (s : Session) (d : Disk)
    (hcf : s.createdFiles = []) (hod : d.onDisk = []) :
    (Cleanup (Execute env s d).session (Execute env s d).disk).2.onDisk =
      (Execute env s d).failedFile.toList := by
  obtain ⟨_, h2, h3, _, _⟩ := executeLoop_spec env 1001 s d 1 s.freeSpace 0
    (Execute env s d) rfl (by rw [hod, hcf]) (by rw [hcf]; simp)
  show ((Execute env s d).disk.onDisk.filter
      (fun f => !((Execute env s d).session.createdFiles.contains f))) = _
  rw [h2, List.filter_append]
  have hkeep : (Execute env s d).failedFile.toList.filter
      (fun f => !((Execute env s d).session.createdFiles.contains f)) =
      (Execute env s d).failedFile.toList := by
    cases hff : (Execute env s d).failedFile with
    | none => simp
    | some i =>
      have hni := h3 i hff
      simp [List.filter, hni]
  have hdrop : (Execute env s d).session.createdFiles.filter
      (fun f => !((Execute env s d).session.createdFiles.contains f)) = [] := by
    apply List.filter_eq_nil_iff.mpr
    intro a ha
    simp [ha]
  rw [hkeep, hdrop, List.append_nil]

/-- C2 witness: the characterization applied to a run that completes
without a write error, where nothing survives Cleanup. -/
theorem c2_cleanup_removes_recorded_witness :
    (Cleanup (Execute ⟨fun _ => none, fun _ => false, fun _ => false, fun _ => none,
          fun _ => 0⟩ ⟨2147483648, 0, [], 0, "SSD"⟩ ⟨4294967296, false, []⟩).session
        (Execute ⟨fun _ => none, fun _ => false, fun _ => false, fun _ => none,
          fun _ => 0⟩ ⟨2147483648, 0, [], 0, "SSD"⟩ ⟨4294967296, false, []⟩).disk).2.onDisk
      = (Execute ⟨fun _ => none, fun _ => false, fun _ => false, fun _ => none,
          fun _ => 0⟩ ⟨2147483648, 0, [], 0, "SSD"⟩
          ⟨4294967296, false, []⟩).failedFile.toList :=
  c2_cleanup_removes_recorded _ ⟨2147483648, 0, [], 0, "SSD"⟩ ⟨4294967296, false, []⟩
    rfl rfl

end WipeDisk
